import Mathlib

/-!
Verification of the `tuber` utility (src/tuber.py): a shallow embedding of its
pure string-processing functions and an explicit model of its effectful
pipeline (`get_video_metadata`, `main`, `create_markdown_file`), together with
theorems settling the specification claims about it.

Conventions: Python strings are modelled as Lean `String`/`List Char`; the
ASCII behaviour of Python's character classes (`\w`, `\s`) and `str.lower` is
modelled explicitly; the remote video-metadata service is a parameter mapping
the requested identifier to the returned item list; `datetime.now()` outputs
are parameters of the note builder.
-/

namespace Tuber

/-- Model of Python's `\w` character class (ASCII range): letters, digits and
underscore. Used by `re.sub(r"[^\w\s]", '-', tag)` in `sanitize_tags`
(src/tuber.py line 41). -/
def isPyWordChar (c : Char) : Bool :=
  (65 ≤ c.toNat && c.toNat ≤ 90) || (97 ≤ c.toNat && c.toNat ≤ 122) ||
    (48 ≤ c.toNat && c.toNat ≤ 57) || c = '_'

/-- Model of Python's `\s` character class (ASCII range): space, tab, newline,
carriage return, vertical tab, form feed. -/
def isPySpaceChar (c : Char) : Bool :=
  c = ' ' || c = '\t' || c = '\n' || c = '\r' || c = '\x0b' || c = '\x0c'

/-- Model of Python's `str.lower` (ASCII range): map `A`-`Z` (code points
65-90) to the character 32 code points higher; leave everything else. -/
def pyLower (c : Char) : Char :=
  if 65 ≤ c.toNat ∧ c.toNat ≤ 90 then Char.ofNat (c.toNat + 32) else c

/-- One character of `re.sub(r"[^\w\s]", '-', tag)` (src/tuber.py line 41):
a character that is neither a word character nor whitespace becomes `-`. -/
def pySubChar (c : Char) : Char :=
  if isPyWordChar c || isPySpaceChar c then c else '-'

/-- One character of `tag.replace(' ', '-')` (src/tuber.py line 42). -/
def pySpaceHyphen (c : Char) : Char :=
  if c = ' ' then '-' else c

/-- `tag.replace("'", '')` (src/tuber.py line 40): drop apostrophes. -/
def pyRemoveApostrophes (s : String) : String :=
  String.mk (s.toList.filter (fun c => c ≠ '\''))

/-- `re.sub(r"[^\w\s]", '-', tag)` (src/tuber.py line 41), character-wise. -/
def pySubNonWord (s : String) : String :=
  String.mk (s.toList.map pySubChar)

/-- `tag.replace(' ', '-')` (src/tuber.py line 42), character-wise. -/
def pyReplaceSpace (s : String) : String :=
  String.mk (s.toList.map pySpaceHyphen)

/-- `str.lower()` (src/tuber.py line 42), character-wise (ASCII model). -/
def pyLowerStr (s : String) : String :=
  String.mk (s.toList.map pyLower)

/-- `sanitize_tag` (src/tuber.py lines 39-43): remove apostrophes, hyphenate
non-word non-space characters, hyphenate spaces, lowercase - in that order. -/
def sanitize_tag (tag : String) : String :=
  pyLowerStr (pyReplaceSpace (pySubNonWord (pyRemoveApostrophes tag)))

/-- `sanitize_tags` (src/tuber.py lines 37-48): the list comprehension
`[sanitize_tag tag for tag in tags]`. -/
def sanitize_tags (tags : List String) : List String :=
  tags.map sanitize_tag

/-! Python's `re` classes on `str` and `str.lower` are Unicode-aware, and
`str.lower` may grow a string: `İ` (U+0130), a word character, lowercases to
`i` followed by the combining dot above (U+0307), which is neither a word
character nor whitespace. The following definitions extend the ASCII model to
a character domain on which this behaviour is exact - all of ASCII plus
U+0130 and U+0307 (other characters are modelled as fixed non-word
characters, which is irrelevant to the theorems below: they are stated for
ASCII input or at these two characters). `sanitize_tag_py` agrees with
`sanitize_tag` on ASCII strings, proved in `sanitize_tag_py_ascii`. -/

/-- Per-character `str.lower` with the Unicode special casing of U+0130:
`İ` becomes the two characters `i` U+0307; on every other modelled character
it is the single character `pyLower c`. -/
def pyLowerUni (c : Char) : List Char :=
  if c = '\u0130' then ['i', '\u0307'] else [pyLower c]

/-- Python's Unicode `\w` on the modelled domain: the ASCII word characters
plus `İ` (U+0130); the combining dot U+0307 is not a word character. -/
def isPyWordCharUni (c : Char) : Bool :=
  isPyWordChar c || c = '\u0130'

/-- One character of `re.sub(r"[^\w\s]", '-', tag)` with the Unicode `\w`. -/
def pySubCharUni (c : Char) : Char :=
  if isPyWordCharUni c || isPySpaceChar c then c else '-'

/-- `re.sub(r"[^\w\s]", '-', tag)` with the Unicode `\w`, character-wise. -/
def pySubNonWordUni (s : String) : String :=
  String.mk (s.toList.map pySubCharUni)

/-- `str.lower()` with Unicode case mapping: per-character lowering
concatenated, so the string may grow. -/
def pyLowerStrUni (s : String) : String :=
  String.mk (s.toList.flatMap pyLowerUni)

/-- `sanitize_tag` (src/tuber.py lines 39-43) under the Unicode-aware model:
the same four steps in the same order - remove apostrophes, hyphenate
non-word non-space characters, hyphenate spaces, lowercase - with the
Unicode classes and lowering. -/
def sanitize_tag_py (tag : String) : String :=
  pyLowerStrUni (pyReplaceSpace (pySubNonWordUni (pyRemoveApostrophes tag)))

/-- `sanitize_tags` under the Unicode-aware model. -/
def sanitize_tags_py (tags : List String) : List String :=
  tags.map sanitize_tag_py

/-- The invalid filename characters of `sanitize_filename`
(src/tuber.py line 52): `<>:"/\|?*`. -/
def invalid_chars : List Char := ['<', '>', ':', '"', '/', '\\', '|', '?', '*']

/-- `sanitize_filename` (src/tuber.py lines 50-55): for each invalid character
in turn, `title.replace(char, '-')` (a single-character replace is a
character-wise map). -/
def sanitize_filename (title : String) : String :=
  invalid_chars.foldl
    (fun t ch => String.mk (t.toList.map (fun x => if x = ch then '-' else x))) title

/-! ## Identifier extraction

`extract_video_id` (src/tuber.py lines 57-61) applies
`re.search(r'(youtu\.be\/|youtube\.com\/(watch\?(.*&)?v=|(embed|v)\/))([^?&"\>]+)', url)`
and returns group 5. The fixed pattern is embedded directly: each regex
literal is a prefix test, the alternations try their branches left to right,
the optional greedy `(.*&)?` tries the splits at each `&` from the longest
leftward (`.` does not cross a newline), group 5 is the maximal nonempty run
of characters outside `?&">`, and the search itself tries start positions
left to right. -/

/-- The negated class `[^?&"\>]` of group 5: these characters stop the run. -/
def stopChar (c : Char) : Bool :=
  c = '?' || c = '&' || c = '"' || c = '>'

/-- Group 5, `[^?&"\>]+`: the maximal run of non-stop characters, which must
be nonempty; it is the last pattern element, so greedy means maximal. -/
def group5 (l : List Char) : Option (List Char) :=
  let g := l.takeWhile (fun c => !stopChar c)
  if g = [] then none else some g

/-- The literal `youtu.be/` of the first alternative. -/
def litYoutuBe : List Char := ['y', 'o', 'u', 't', 'u', '.', 'b', 'e', '/']

/-- The literal `youtube.com/` opening the second alternative. -/
def litYoutube : List Char := ['y', 'o', 'u', 't', 'u', 'b', 'e', '.', 'c', 'o', 'm', '/']

/-- The literal `watch?` (regex `watch\?`). -/
def litWatch : List Char := ['w', 'a', 't', 'c', 'h', '?']

/-- The literal `v=`. -/
def litVEq : List Char := ['v', '=']

/-- The literal `embed/` from `(embed|v)\/` with the first inner branch. -/
def litEmbedSlash : List Char := ['e', 'm', 'b', 'e', 'd', '/']

/-- The literal `v/` from `(embed|v)\/` with the second inner branch. -/
def litVSlash : List Char := ['v', '/']

/-- The four markers a matching URL must contain (each pattern alternative
begins with one of them): `youtu.be/`, `youtube.com/watch?`,
`youtube.com/embed/`, `youtube.com/v/`. -/
def litYoutubeWatch : List Char := litYoutube ++ litWatch

/-- `youtube.com/embed/`. -/
def litYoutubeEmbed : List Char := litYoutube ++ litEmbedSlash

/-- `youtube.com/v/`. -/
def litYoutubeV : List Char := litYoutube ++ litVSlash

/-- `v=` followed by group 5. -/
def veqGroup (l : List Char) : Option (List Char) :=
  if litVEq.isPrefixOf l then group5 (l.drop 2) else none

/-- The suffixes following each `&` of `l`, scanning left to right and
stopping at a newline: the candidate remainders after the group `(.*&)`
(whose `.*` cannot cross a newline) consumes through that `&`. -/
def ampSuffixes : List Char → List (List Char)
  | [] => []
  | c :: rest =>
    if c = '\n' then []
    else if c = '&' then rest :: ampSuffixes rest
    else ampSuffixes rest

/-- First successful alternative, in backtracking order. -/
def firstSome : List (Option (List Char)) → Option (List Char)
  | [] => none
  | o :: os =>
    match o with
    | some g => some g
    | none => firstSome os

/-- After the literal `watch?`: the optional greedy `(.*&)` is tried with the
longest `.*` first (the rightmost `&`), then shorter, and finally skipped,
each followed by `v=` and group 5. -/
def watchTail (l : List Char) : Option (List Char) :=
  match firstSome (((ampSuffixes l).reverse).map veqGroup) with
  | some g => some g
  | none => veqGroup l

/-- The inner alternation `watch\?(.*&)?v=|(embed|v)\/` followed by group 5,
branches tried left to right. -/
def innerAlt (l : List Char) : Option (List Char) :=
  match (if litWatch.isPrefixOf l then watchTail (l.drop 6) else none) with
  | some g => some g
  | none =>
    match (if litEmbedSlash.isPrefixOf l then group5 (l.drop 6) else none) with
    | some g => some g
    | none => if litVSlash.isPrefixOf l then group5 (l.drop 2) else none

/-- The whole pattern anchored at one start position: `youtu.be/` then group
5, or else `youtube.com/` then the inner alternation. -/
def matchAt (l : List Char) : Option (List Char) :=
  match (if litYoutuBe.isPrefixOf l then group5 (l.drop 9) else none) with
  | some g => some g
  | none => if litYoutube.isPrefixOf l then innerAlt (l.drop 12) else none

/-- `re.search`: try each start position from the left; at the first position
where the pattern matches, return its group 5. -/
def searchGroup5 : List Char → Option (List Char)
  | [] => none
  | c :: rest =>
    match matchAt (c :: rest) with
    | some g => some g
    | none => searchGroup5 rest

/-- `extract_video_id` (src/tuber.py lines 57-61): `match.group(5)` when the
search succeeds, `None` otherwise. -/
def extract_video_id (youtube_url : String) : Option String :=
  (searchGroup5 youtube_url.toList).map String.mk

/-- Does `pat` occur as a contiguous subsequence of the list? (Used to state
which URLs the pattern can possibly match.) -/
def containsSeq (pat : List Char) : List Char → Bool
  | [] => pat.isPrefixOf []
  | c :: rest => pat.isPrefixOf (c :: rest) || containsSeq pat rest

/-- A character of the video-identifier alphabet (letters, digits, `-`, `_`),
used to quantify the supported-URL-shape theorems. -/
def goodIdChar (c : Char) : Bool :=
  c.isAlphanum || c = '-' || c = '_'

/-! ## The fetch / main pipeline

The remote service (`youtube.videos().list(part=..., id=video_id)` followed by
`request.execute()`, src/tuber.py lines 67-73) is modelled as a function from
the requested identifier (`None` when extraction failed, since the code passes
`video_id` through unchecked) to the `items` list of the response, each item's
`snippet` being a `Snippet`. -/

/-- The `snippet` object of one response item (src/tuber.py lines 78-86):
`tags` and `publishedAt` are optional (`snippet.get`). -/
structure Snippet where
  title : String
  description : String
  channelTitle : String
  publishedAt : Option String
  tags : Option (List String)
deriving DecidableEq

/-- The metadata dictionary built on src/tuber.py lines 79-86. -/
structure VideoMetadata where
  url : String
  title : String
  description : String
  channel : String
  published : Option String
  tags : List String
deriving DecidableEq

/-- What `get_video_metadata` returns: either the plain string
`'No video found for this ID.'` (src/tuber.py line 76) - a value of a
different shape than the metadata dictionary - or the dictionary itself. -/
inductive FetchResult where
  | notFound (msg : String)
  | found (m : VideoMetadata)
deriving DecidableEq

/-- One executed fetch: the `id` parameter the request was issued with
(src/tuber.py line 71) and the returned value. -/
structure FetchTrace where
  requestedId : Option String
  result : FetchResult
deriving DecidableEq

/-- `get_video_metadata` (src/tuber.py lines 63-86): extract the identifier
(unchecked - a failed extraction still reaches the request as `id=None`),
issue the request, and either return the not-found string on an empty item
list or build the metadata dictionary from the first item's snippet, with
`tags` defaulting to `[]` and passed through `sanitize_tags`. -/
def get_video_metadata (youtube_url : String)
    (items : Option String → List Snippet) : FetchTrace :=
  let video_id := extract_video_id youtube_url
  match items video_id with
  | [] => ⟨video_id, FetchResult.notFound "No video found for this ID."⟩
  | s :: _ =>
    ⟨video_id, FetchResult.found
      ⟨youtube_url, s.title, s.description, s.channelTitle, s.publishedAt,
        sanitize_tags (s.tags.getD [])⟩⟩

/-- The static resolution table `RESOLUTIONS` (src/tuber.py lines 13-27). -/
def RESOLUTIONS : List (String × Nat × Nat) :=
  [("nHD", 640, 360), ("FWVGA", 854, 480), ("qHD", 960, 540), ("SD", 1280, 720),
   ("WXGA", 1366, 768), ("HD+", 1600, 900), ("FHD", 1920, 1080),
   ("WQHD", 2560, 1440), ("QHD+", 3200, 1800), ("4K UHD", 3840, 2160),
   ("5K", 5120, 2880), ("8K UHD", 7680, 4320), ("16K UHD", 15360, 8640)]

/-- `RESOLUTIONS[args.resolution]` (src/tuber.py line 132): `args.resolution`
may be absent (`None`), in which case - as for any unknown key - the lookup
raises `KeyError`. -/
def lookupResolution : Option String → Option (Nat × Nat)
  | none => none
  | some r => RESOLUTIONS.lookup r

/-- `generate_embed_code` (src/tuber.py lines 88-90): the fixed iframe
template with width, height and identifier substituted. -/
def generate_embed_code (video_id : String) (width height : Nat) : String :=
  "<iframe width=\"" ++ toString width ++ "\" height=\"" ++ toString height ++
    "\" src=\"https://www.youtube.com/embed/" ++ video_id ++
    "\" title=\"YouTube video player\" frameborder=\"0\" allow=\"accelerometer; autoplay; clipboard-write; encrypted-media; gyroscope; picture-in-picture\" allowfullscreen></iframe>"

/-- How a run of `create_markdown_file` (src/tuber.py lines 92-117) ends if it
is ever called: `makedirs` and `open` succeed, the first `file.write('---\n')`
(line 102) runs, and line 103 then evaluates the name `datetime` - which is
never imported or bound anywhere in src/tuber.py - raising `NameError`. The
payload records the offending name and the content written before the raise. -/
inductive CreateOutcome where
  | nameError (name : String) (written : String)
deriving DecidableEq

/-- `create_markdown_file` (src/tuber.py lines 92-117), as executed: its body
always raises `NameError` on the unbound name `datetime` at line 103, after
writing only `---\n`. (The full text its write sequence would produce were
`datetime` bound is `noteContent` below.) The source signature has four
parameters (`metadata, embed_code, config, vault_path`). -/
def create_markdown_file (metadata : VideoMetadata) (embed_code : String)
    (config : Option Unit) (vault_path : String) : CreateOutcome :=
  CreateOutcome.nameError "datetime" "---\n"

/-- Number of parameters in the definition of `create_markdown_file`
(src/tuber.py line 92). -/
def create_markdown_file_param_count : Nat := 4

/-- Number of arguments at the single call site of `create_markdown_file`,
`create_markdown_file(metadata, embed_code, args.vault)`
(src/tuber.py line 137). -/
def main_call_create_markdown_file_arg_count : Nat := 3

/-- How `main` (src/tuber.py lines 124-137) ends. `exitMissingApiKey`:
`sys.exit(1)` at line 127 when the key is unset or empty (`not TUBER_API_KEY`).
`keyErrorResolution`: `KeyError` at `RESOLUTIONS[args.resolution]` (line 132)
when the resolution is absent or not a table key; the fetch (line 129) has
already run. `nameErrorVideoId`: `NameError` at
`generate_embed_code(video_id, width, height)` (line 133) - the name
`video_id` is not bound in `main`'s scope (it is local to
`get_video_metadata`); the fetch has already run. Lines 134-137, including the
`create_markdown_file` call, are never reached on any path. -/
inductive MainOutcome where
  | exitMissingApiKey
  | keyErrorResolution (t : FetchTrace)
  | nameErrorVideoId (t : FetchTrace)
deriving DecidableEq

/-- `main` (src/tuber.py lines 124-137). -/
def main (apiKey : Option String) (youtube_url : String)
    (resolution : Option String) (items : Option String → List Snippet) :
    MainOutcome :=
  if apiKey.getD "" = "" then MainOutcome.exitMissingApiKey
  else
    let t := get_video_metadata youtube_url items
    match lookupResolution resolution with
    | none => MainOutcome.keyErrorResolution t
    | some _ => MainOutcome.nameErrorVideoId t

/-- The note files a run of `main` writes. The only complete-file write in
src/tuber.py is inside `create_markdown_file` (line 101), whose call site
(line 137) is unreachable: every path of `main` exits or raises at lines
125-133 first. Hence no outcome carries a written file. -/
def mainWrites : MainOutcome → List String
  | MainOutcome.exitMissingApiKey => []
  | MainOutcome.keyErrorResolution _ => []
  | MainOutcome.nameErrorVideoId _ => []

/-! ## The note document

`noteContent` is the text the write sequence of `create_markdown_file`
(src/tuber.py lines 101-117) produces, one `++`-operand per `file.write`
call in source order; the three `datetime.now().strftime(...)` results
(lines 103-105) are the parameters `dateStr`, `dayStr`, `timeStr` (the
source's `datetime` is unbound, see `create_markdown_file`). -/

/-- The tags frontmatter line (src/tuber.py lines 106-108):
`'#' + tag` for each sanitized tag, joined by `', '` inside `[...]`. -/
def tagsFrontmatterLine (tags : List String) : String :=
  "tags: [" ++
    String.intercalate ", " ((sanitize_tags tags).map (fun t => "#" ++ t)) ++
    "]\n"

/-- The text `create_markdown_file` would write (src/tuber.py lines 101-117),
one operand per `file.write`. -/
def noteContent (m : VideoMetadata) (embed_code : String)
    (dateStr dayStr timeStr : String) : String :=
  "---\n"
  ++ ("date: " ++ dateStr ++ "\n")
  ++ ("day: " ++ dayStr ++ "\n")
  ++ ("time: " ++ timeStr ++ "\n")
  ++ ("tags: [" ++
      String.intercalate ", " ((sanitize_tags m.tags).map (fun t => "#" ++ t)) ++
      "]\n")
  ++ "type: link\n"
  ++ ("url: " ++ m.url ++ "\n")
  ++ ("author: " ++ m.channel ++ "\n")
  ++ "---\n\n"
  ++ ("# " ++ m.title ++ "\n\n")
  ++ (embed_code ++ "\n\n")
  ++ "## Description\n"
  ++ (m.description ++ "\n\n")

/-- The frontmatter block of `noteContent` grouped as one unit: opening and
closing `---` lines around the key-value lines. -/
def frontmatterBlock (m : VideoMetadata) (dateStr dayStr timeStr : String) :
    String :=
  "---\n" ++ ("date: " ++ dateStr ++ "\n") ++ ("day: " ++ dayStr ++ "\n") ++
    ("time: " ++ timeStr ++ "\n") ++ tagsFrontmatterLine m.tags ++
    "type: link\n" ++ ("url: " ++ m.url ++ "\n") ++
    ("author: " ++ m.channel ++ "\n") ++ "---\n"

/-! ## Claim-side definitions

Definitions written from the words of a claim (never from the source), used
only to compare a claim's statement with the embedded code. -/

/-- The per-tag transformation as claim C5 words it: remove apostrophes;
replace every character that is not alphanumeric or whitespace with a hyphen;
replace whitespace with hyphens and lowercase. (This differs from the source,
whose `\w` class also protects the underscore and whose space replacement
touches only `' '`.) -/
def claimSanitizeTag (tag : String) : String :=
  let t1 := (tag.toList.filter (fun c => c ≠ '\''))
  let t2 := t1.map (fun c => if c.isAlphanum || isPySpaceChar c then c else '-')
  let t3 := t2.map (fun c => if isPySpaceChar c then '-' else c)
  String.mk (t3.map pyLower)

/-- The note layout as claim C9 words it: the frontmatter block (delimited by
`---` lines), then the embed iframe line, then a blank line, then the
`## Description` heading, then the raw description text, and nothing else. -/
def claimedNoteContent (m : VideoMetadata) (embed_code : String)
    (dateStr dayStr timeStr : String) : String :=
  frontmatterBlock m dateStr dayStr timeStr ++ (embed_code ++ "\n") ++ "\n" ++
    "## Description\n" ++ m.description

/-- The per-tag transformation as the amendment of claim C5 words it: remove
apostrophes, then in one character-wise pass: a character that is neither a
word character (alphanumeric or underscore) nor whitespace becomes a hyphen;
a space becomes a hyphen; every kept character is lowercased (ASCII). -/
def amendedSanitizeTag (tag : String) : String :=
  String.mk ((tag.toList.filter (fun c => c ≠ '\'')).map
    (fun c =>
      if isPyWordChar c || isPySpaceChar c then
        (if c = ' ' then '-' else pyLower c)
      else '-'))

/-! ## Character-level helper lemmas -/

theorem toNat_ofNat_lt {n : Nat} (h : n < 55296) : (Char.ofNat n).toNat = n := by
  have hv : n.isValidChar := Or.inl h
  rw [Char.ofNat, dif_pos hv]
  rfl

theorem char_eq_of_toNat_eq {c d : Char} (h : c.toNat = d.toNat) : c = d := by
  have hc := Char.ofNat_toNat c
  have hd := Char.ofNat_toNat d
  rw [← hc, ← hd, h]

/-- Transport a decidable character property from the ASCII range. -/
theorem char_ball (P : Char → Prop) [DecidablePred P]
    (h : ∀ n, n < 128 → P (Char.ofNat n)) (c : Char) (hc : c.toNat < 128) :
    P c := by
  have hx := h c.toNat hc
  rwa [Char.ofNat_toNat] at hx

theorem pyWord_lt (c : Char) (h : isPyWordChar c = true) : c.toNat < 128 := by
  simp only [isPyWordChar, Bool.or_eq_true, Bool.and_eq_true,
    decide_eq_true_eq] at h
  rcases h with ((⟨h1, h2⟩ | ⟨h1, h2⟩) | ⟨h1, h2⟩) | h
  · omega
  · omega
  · omega
  · subst h; decide

theorem space_cases (c : Char) (h : isPySpaceChar c = true) :
    c = ' ' ∨ c = '\t' ∨ c = '\n' ∨ c = '\r' ∨ c = '\x0b' ∨ c = '\x0c' := by
  simpa [isPySpaceChar, or_assoc] using h

theorem word_pyLower_facts (c : Char) (h : isPyWordChar c = true) :
    isPyWordChar (pyLower c) = true ∧ pyLower c ≠ ' ' ∧
      pyLower (pyLower c) = pyLower c ∧ pyLower c ≠ '\'' := by
  exact char_ball
    (fun c => isPyWordChar c = true → isPyWordChar (pyLower c) = true ∧
      pyLower c ≠ ' ' ∧ pyLower (pyLower c) = pyLower c ∧ pyLower c ≠ '\'')
    (by decide) c (pyWord_lt c h) h

theorem word_not_space (c : Char) (h : isPyWordChar c = true) :
    c ≠ ' ' := by
  intro he
  subst he
  exact absurd h (by decide)

/-- The fused character action of `sanitize_tag` after the apostrophe
filter. -/
theorem sanitize_tag_eq_map (t : String) :
    sanitize_tag t = String.mk ((t.toList.filter (fun c => c ≠ '\'')).map
      (fun c => pyLower (pySpaceHyphen (pySubChar c)))) := by
  simp only [sanitize_tag, pyLowerStr, pyReplaceSpace, pySubNonWord,
    pyRemoveApostrophes, String.toList, List.map_map]
  rfl

theorem comp_eq_amended (c : Char) :
    pyLower (pySpaceHyphen (pySubChar c)) =
      (if isPyWordChar c || isPySpaceChar c then
        (if c = ' ' then '-' else pyLower c) else '-') := by
  by_cases hc : (isPyWordChar c || isPySpaceChar c) = true
  · rw [if_pos hc]
    have hsub : pySubChar c = c := by rw [pySubChar, if_pos hc]
    rw [hsub]
    by_cases hsp : c = ' '
    · subst hsp; decide
    · rw [pySpaceHyphen, if_neg hsp, if_neg hsp]
  · have hc' := Bool.eq_false_iff.mpr hc
    rw [if_neg hc]
    have hsub : pySubChar c = '-' := by rw [pySubChar, hc']; simp
    rw [hsub]
    decide

theorem comp_ne_apos (c : Char) :
    pyLower (pySpaceHyphen (pySubChar c)) ≠ '\'' := by
  rw [comp_eq_amended]
  by_cases hw : isPyWordChar c = true
  · by_cases hsp : c = ' '
    · subst hsp; exact absurd hw (by decide)
    · simp only [hw, Bool.true_or, if_true, if_neg hsp]
      exact (word_pyLower_facts c hw).2.2.2
  · by_cases hs : isPySpaceChar c = true
    · rcases space_cases c hs with h | h | h | h | h | h <;> subst h <;> decide
    · have hcond : (isPyWordChar c || isPySpaceChar c) = false := by
        simp [Bool.eq_false_iff.mpr hw, Bool.eq_false_iff.mpr hs]
      rw [hcond]
      simp

theorem comp_idem (c : Char) :
    pyLower (pySpaceHyphen (pySubChar
        (pyLower (pySpaceHyphen (pySubChar c))))) =
      pyLower (pySpaceHyphen (pySubChar c)) := by
  by_cases hw : isPyWordChar c = true
  · by_cases hsp : c = ' '
    · subst hsp; exact absurd hw (by decide)
    · have h1 : pyLower (pySpaceHyphen (pySubChar c)) = pyLower c := by
        rw [comp_eq_amended, if_pos (by simp [hw]), if_neg hsp]
      obtain ⟨hW, hS, hI, -⟩ := word_pyLower_facts c hw
      rw [h1, comp_eq_amended, if_pos (by simp [hW]), if_neg hS, hI]
  · by_cases hs : isPySpaceChar c = true
    · rcases space_cases c hs with h | h | h | h | h | h <;> subst h <;> decide
    · have h1 : pyLower (pySpaceHyphen (pySubChar c)) = '-' := by
        rw [comp_eq_amended,
          if_neg (by simp [Bool.eq_false_iff.mpr hw, Bool.eq_false_iff.mpr hs])]
      rw [h1]
      decide

theorem map_comp_idem (l : List Char) :
    (l.map (fun c => pyLower (pySpaceHyphen (pySubChar c)))).map
        (fun c => pyLower (pySpaceHyphen (pySubChar c))) =
      l.map (fun c => pyLower (pySpaceHyphen (pySubChar c))) := by
  induction l with
  | nil => rfl
  | cons a l ih => simp only [List.map_cons, ih, comp_idem a]

set_option maxHeartbeats 1000000 in
theorem sanitize_tag_idem (t : String) :
    sanitize_tag (sanitize_tag t) = sanitize_tag t := by
  rw [sanitize_tag_eq_map (sanitize_tag t)]
  rw [sanitize_tag_eq_map t]
  have hl : (String.mk ((t.toList.filter (fun c => c ≠ '\'')).map
      (fun c => pyLower (pySpaceHyphen (pySubChar c))))).toList =
      (t.toList.filter (fun c => c ≠ '\'')).map
        (fun c => pyLower (pySpaceHyphen (pySubChar c))) := rfl
  rw [hl]
  have hfilter : ((t.toList.filter (fun c => c ≠ '\'')).map
      (fun c => pyLower (pySpaceHyphen (pySubChar c)))).filter
        (fun c => c ≠ '\'') =
      (t.toList.filter (fun c => c ≠ '\'')).map
        (fun c => pyLower (pySpaceHyphen (pySubChar c))) := by
    refine List.filter_eq_self.mpr ?_
    intro a ha
    rcases List.mem_map.1 ha with ⟨b, -, hb⟩
    simpa [← hb] using comp_ne_apos b
  rw [hfilter]
  exact congrArg String.mk (map_comp_idem (t.toList.filter (fun c => c ≠ '\'')))

/-- Idempotence of tag sanitization, lifted to tag lists (ASCII model). -/
theorem sanitize_tags_idem (tags : List String) :
    sanitize_tags (sanitize_tags tags) = sanitize_tags tags := by
  unfold sanitize_tags
  rw [List.map_map]
  refine List.map_congr_left ?_
  intro t _
  exact sanitize_tag_idem t

/-! ## Agreement of the Unicode-aware sanitizer with the ASCII model -/

theorem sanitize_tag_stages (t : String) :
    sanitize_tag t = String.mk
      ((((t.toList.filter (fun c => c ≠ '\'')).map pySubChar).map
        pySpaceHyphen).map pyLower) := rfl

theorem sanitize_tag_py_stages (t : String) :
    sanitize_tag_py t = String.mk
      ((((t.toList.filter (fun c => c ≠ '\'')).map pySubCharUni).map
        pySpaceHyphen).flatMap pyLowerUni) := rfl

theorem char_ne_dotted_I {c : Char} (h : c.toNat < 128) : c ≠ 'İ' := by
  intro he
  subst he
  exact absurd h (by decide)

theorem pyLowerUni_ascii_eq {c : Char} (h : c.toNat < 128) :
    pyLowerUni c = [pyLower c] := by
  unfold pyLowerUni
  rw [if_neg (char_ne_dotted_I h)]

theorem pySubCharUni_ascii_eq {c : Char} (h : c.toNat < 128) :
    pySubCharUni c = pySubChar c := by
  have hni : c ≠ 'İ' := char_ne_dotted_I h
  simp [pySubCharUni, pySubChar, isPyWordCharUni, hni]

theorem pySubChar_ascii {c : Char} (h : c.toNat < 128) :
    (pySubChar c).toNat < 128 := by
  unfold pySubChar
  split
  · exact h
  · decide

theorem pySpaceHyphen_ascii {c : Char} (h : c.toNat < 128) :
    (pySpaceHyphen c).toNat < 128 := by
  unfold pySpaceHyphen
  split
  · decide
  · exact h

theorem pyLower_ascii {c : Char} (h : c.toNat < 128) :
    (pyLower c).toNat < 128 := by
  unfold pyLower
  by_cases h65 : 65 ≤ c.toNat ∧ c.toNat ≤ 90
  · rw [if_pos h65, toNat_ofNat_lt (by omega)]
    omega
  · rw [if_neg h65]
    exact h

/-- A `flatMap` of singleton images is a `map`. -/
theorem flatMap_singleton_eq_map {l : List Char} {f : Char → List Char}
    {g : Char → Char} (h : ∀ c ∈ l, f c = [g c]) : l.flatMap f = l.map g := by
  induction l with
  | nil => rfl
  | cons a t ih =>
    rw [List.flatMap_cons, h a (by simp), List.map_cons,
      ih (fun c hc => h c (by simp [hc]))]
    rfl

/-- On ASCII input the Unicode-aware sanitizer coincides with the ASCII
model. -/
theorem sanitize_tag_py_ascii (t : String)
    (h : ∀ c ∈ t.toList, c.toNat < 128) :
    sanitize_tag_py t = sanitize_tag t := by
  rw [sanitize_tag_py_stages, sanitize_tag_stages]
  have hf : ∀ c ∈ t.toList.filter (fun c => c ≠ '\''), c.toNat < 128 :=
    fun c hc => h c (List.mem_of_mem_filter hc)
  have h1 : (t.toList.filter (fun c => c ≠ '\'')).map pySubCharUni =
      (t.toList.filter (fun c => c ≠ '\'')).map pySubChar :=
    List.map_congr_left (fun c hc => pySubCharUni_ascii_eq (hf c hc))
  rw [h1]
  have h2 : ∀ c ∈ ((t.toList.filter (fun c => c ≠ '\'')).map pySubChar).map
      pySpaceHyphen, c.toNat < 128 := by
    intro c hc
    rcases List.mem_map.1 hc with ⟨b, hb, rfl⟩
    rcases List.mem_map.1 hb with ⟨a, ha, rfl⟩
    exact pySpaceHyphen_ascii (pySubChar_ascii (hf a ha))
  exact congrArg String.mk
    (flatMap_singleton_eq_map (fun c hc => pyLowerUni_ascii_eq (h2 c hc)))

theorem sanitize_tags_py_ascii (tags : List String)
    (h : ∀ t ∈ tags, ∀ c ∈ t.toList, c.toNat < 128) :
    sanitize_tags_py tags = sanitize_tags tags := by
  unfold sanitize_tags_py sanitize_tags
  exact List.map_congr_left (fun t ht => sanitize_tag_py_ascii t (h t ht))

/-- Sanitizing an ASCII tag yields an ASCII tag. -/
theorem sanitize_tag_output_ascii (t : String)
    (h : ∀ c ∈ t.toList, c.toNat < 128) :
    ∀ c ∈ (sanitize_tag t).toList, c.toNat < 128 := by
  intro c hc
  rw [sanitize_tag_stages] at hc
  have hc' : c ∈ (((t.toList.filter (fun c => c ≠ '\'')).map pySubChar).map
      pySpaceHyphen).map pyLower := hc
  rcases List.mem_map.1 hc' with ⟨b, hb, rfl⟩
  rcases List.mem_map.1 hb with ⟨a, ha, rfl⟩
  rcases List.mem_map.1 ha with ⟨x, hx, rfl⟩
  exact pyLower_ascii (pySpaceHyphen_ascii (pySubChar_ascii
    (h x (List.mem_of_mem_filter hx))))

/-! ## Lemmas about the extraction pattern -/

/-- The embedded literals agree with the pattern text. -/
theorem lit_text : litYoutuBe = "youtu.be/".toList ∧
    litYoutube = "youtube.com/".toList ∧ litWatch = "watch?".toList ∧
    litVEq = "v=".toList ∧ litEmbedSlash = "embed/".toList ∧
    litVSlash = "v/".toList ∧ litYoutubeWatch = "youtube.com/watch?".toList ∧
    litYoutubeEmbed = "youtube.com/embed/".toList ∧
    litYoutubeV = "youtube.com/v/".toList := by
  refine ⟨?_, ?_, ?_, ?_, ?_, ?_, ?_, ?_, ?_⟩ <;> decide

/-- Concrete behaviour of the embedded search on representative URLs
(the same answers `re.search` on the source pattern gives). -/
theorem extract_video_id_examples :
    extract_video_id "https://youtu.be/dQw4w9WgXcQ" = some "dQw4w9WgXcQ" ∧
    extract_video_id "https://www.youtube.com/watch?v=ABC123" = some "ABC123" ∧
    extract_video_id "https://www.youtube.com/watch?list=PL&v=ABC123" =
      some "ABC123" ∧
    extract_video_id "https://www.youtube.com/embed/ABC123" = some "ABC123" ∧
    extract_video_id "https://www.youtube.com/v/ABC123" = some "ABC123" ∧
    extract_video_id "https://www.youtube.com/watch?v=ABC&t=10" = some "ABC" ∧
    extract_video_id "https://www.youtube.com/channel/xyz" = none ∧
    extract_video_id "https://example.com/page" = none := by
  refine ⟨?_, ?_, ?_, ?_, ?_, ?_, ?_, ?_⟩ <;> decide

theorem isPrefixOf_append_self (l t : List Char) : l.isPrefixOf (l ++ t) = true := by
  induction l with
  | nil => simp
  | cons a as ih => simp [List.isPrefixOf, ih]

theorem exists_of_isPrefixOf {l₁ l₂ : List Char} (h : l₁.isPrefixOf l₂ = true) :
    ∃ t, l₂ = l₁ ++ t := by
  induction l₁ generalizing l₂ with
  | nil => exact ⟨l₂, rfl⟩
  | cons a as ih =>
    cases l₂ with
    | nil => simp [List.isPrefixOf] at h
    | cons b bs =>
      simp only [List.isPrefixOf, Bool.and_eq_true, beq_iff_eq] at h
      obtain ⟨h1, h2⟩ := h
      obtain ⟨t, ht⟩ := ih h2
      exact ⟨t, by rw [h1, ht]; rfl⟩

theorem group5_all_good (idl : List Char) (hne : idl ≠ [])
    (h : ∀ c ∈ idl, stopChar c = false) : group5 idl = some idl := by
  have ht : idl.takeWhile (fun c => !stopChar c) = idl := by
    refine List.takeWhile_eq_self_iff.mpr ?_
    intro x hx
    simp [h x hx]
  simp only [group5, ht, if_neg hne]

theorem good_not_stop (c : Char) (h : goodIdChar c = true) :
    stopChar c = false := by
  apply Bool.eq_false_iff.mpr
  intro hs
  simp only [stopChar, Bool.or_eq_true, decide_eq_true_eq, or_assoc] at hs
  rcases hs with h1 | h1 | h1 | h1 <;> subst h1 <;> exact absurd h (by decide)

theorem good_ne_amp (c : Char) (h : goodIdChar c = true) : c ≠ '&' := by
  intro he
  subst he
  exact absurd h (by decide)

theorem matchAt_ne_y {c : Char} (h : c ≠ 'y') (rest : List Char) :
    matchAt (c :: rest) = none := by
  have h1 : litYoutuBe.isPrefixOf (c :: rest) = false := by
    apply Bool.eq_false_iff.mpr
    intro hp
    obtain ⟨t, ht⟩ := exists_of_isPrefixOf hp
    simp only [litYoutuBe, List.cons_append, List.cons.injEq] at ht
    exact h ht.1
  have h2 : litYoutube.isPrefixOf (c :: rest) = false := by
    apply Bool.eq_false_iff.mpr
    intro hp
    obtain ⟨t, ht⟩ := exists_of_isPrefixOf hp
    simp only [litYoutube, List.cons_append, List.cons.injEq] at ht
    exact h ht.1
  unfold matchAt
  rw [h1, h2]
  simp

theorem searchGroup5_append (pre l : List Char) (h : ∀ c ∈ pre, c ≠ 'y') :
    searchGroup5 (pre ++ l) = searchGroup5 l := by
  induction pre with
  | nil => rfl
  | cons c cs ih =>
    have hc : c ≠ 'y' := h c (by simp)
    have hrest : ∀ x ∈ cs, x ≠ 'y' := fun x hx => h x (by simp [hx])
    show searchGroup5 (c :: (cs ++ l)) = searchGroup5 l
    simp only [searchGroup5, matchAt_ne_y hc]
    exact ih hrest

theorem searchGroup5_of_matchAt {l : List Char} {g : List Char} (hne : l ≠ [])
    (h : matchAt l = some g) : searchGroup5 l = some g := by
  cases l with
  | nil => exact absurd rfl hne
  | cons c rest => simp only [searchGroup5, h]

theorem matchAt_youtuBe (rest : List Char) :
    matchAt (litYoutuBe ++ rest) = group5 rest := by
  have hpre := isPrefixOf_append_self litYoutuBe rest
  have hdrop : (litYoutuBe ++ rest).drop 9 = rest := List.drop_left' (by decide)
  have hnot : litYoutube.isPrefixOf (litYoutuBe ++ rest) = false := by
    apply Bool.eq_false_iff.mpr
    intro hp
    obtain ⟨t, ht⟩ := exists_of_isPrefixOf hp
    simp [litYoutuBe, litYoutube] at ht
  unfold matchAt
  rw [hpre, hdrop, hnot]
  cases hg : group5 rest with
  | none => simp
  | some g => simp

theorem matchAt_youtube (rest : List Char) :
    matchAt (litYoutube ++ rest) = innerAlt rest := by
  have hpre := isPrefixOf_append_self litYoutube rest
  have hdrop : (litYoutube ++ rest).drop 12 = rest := List.drop_left' (by decide)
  have hnot : litYoutuBe.isPrefixOf (litYoutube ++ rest) = false := by
    apply Bool.eq_false_iff.mpr
    intro hp
    obtain ⟨t, ht⟩ := exists_of_isPrefixOf hp
    simp [litYoutuBe, litYoutube] at ht
  unfold matchAt
  rw [hpre, hdrop, hnot]
  simp

theorem innerAlt_watch (rest : List Char) :
    innerAlt (litWatch ++ rest) = watchTail rest := by
  have hpre := isPrefixOf_append_self litWatch rest
  have hdrop : (litWatch ++ rest).drop 6 = rest := List.drop_left' (by decide)
  have hne : litEmbedSlash.isPrefixOf (litWatch ++ rest) = false := by
    apply Bool.eq_false_iff.mpr
    intro hp
    obtain ⟨t, ht⟩ := exists_of_isPrefixOf hp
    simp [litEmbedSlash, litWatch] at ht
  have hnv : litVSlash.isPrefixOf (litWatch ++ rest) = false := by
    apply Bool.eq_false_iff.mpr
    intro hp
    obtain ⟨t, ht⟩ := exists_of_isPrefixOf hp
    simp [litVSlash, litWatch] at ht
  unfold innerAlt
  rw [hpre, hdrop, hne, hnv]
  cases hw : watchTail rest with
  | none => simp
  | some g => simp

theorem innerAlt_embed (rest : List Char) :
    innerAlt (litEmbedSlash ++ rest) = group5 rest := by
  have hpre := isPrefixOf_append_self litEmbedSlash rest
  have hdrop : (litEmbedSlash ++ rest).drop 6 = rest := List.drop_left' (by decide)
  have hnw : litWatch.isPrefixOf (litEmbedSlash ++ rest) = false := by
    apply Bool.eq_false_iff.mpr
    intro hp
    obtain ⟨t, ht⟩ := exists_of_isPrefixOf hp
    simp [litEmbedSlash, litWatch] at ht
  have hnv : litVSlash.isPrefixOf (litEmbedSlash ++ rest) = false := by
    apply Bool.eq_false_iff.mpr
    intro hp
    obtain ⟨t, ht⟩ := exists_of_isPrefixOf hp
    simp [litEmbedSlash, litVSlash] at ht
  unfold innerAlt
  rw [hpre, hdrop, hnw, hnv]
  cases hg : group5 rest with
  | none => simp
  | some g => simp

theorem innerAlt_v (rest : List Char) :
    innerAlt (litVSlash ++ rest) = group5 rest := by
  have hpre := isPrefixOf_append_self litVSlash rest
  have hdrop : (litVSlash ++ rest).drop 2 = rest := List.drop_left' (by decide)
  have hnw : litWatch.isPrefixOf (litVSlash ++ rest) = false := by
    apply Bool.eq_false_iff.mpr
    intro hp
    obtain ⟨t, ht⟩ := exists_of_isPrefixOf hp
    simp [litVSlash, litWatch] at ht
  have hne : litEmbedSlash.isPrefixOf (litVSlash ++ rest) = false := by
    apply Bool.eq_false_iff.mpr
    intro hp
    obtain ⟨t, ht⟩ := exists_of_isPrefixOf hp
    simp [litVSlash, litEmbedSlash] at ht
  unfold innerAlt
  rw [hnw, hne, hpre, hdrop]
  cases hg : group5 rest with
  | none => simp
  | some g => simp

theorem ampSuffixes_no_amp (l : List Char) (h : ∀ c ∈ l, c ≠ '&') :
    ampSuffixes l = [] := by
  induction l with
  | nil => rfl
  | cons c cs ih =>
    have hcamp : c ≠ '&' := h c (by simp)
    have hrest : ∀ x ∈ cs, x ≠ '&' := fun x hx => h x (by simp [hx])
    by_cases hc : c = '\n'
    · simp [ampSuffixes, hc]
    · simp [ampSuffixes, hc, hcamp, ih hrest]

theorem watchTail_no_amp (l : List Char) (h : ∀ c ∈ l, c ≠ '&') :
    watchTail l = veqGroup l := by
  unfold watchTail
  rw [ampSuffixes_no_amp l h]
  rfl

theorem veqGroup_append (rest : List Char) :
    veqGroup (litVEq ++ rest) = group5 rest := by
  have hpre := isPrefixOf_append_self litVEq rest
  have hdrop : (litVEq ++ rest).drop 2 = rest := List.drop_left' (by decide)
  unfold veqGroup
  rw [hpre, hdrop]
  simp

theorem extract_youtuBe (pre id : String) (hy : ∀ c ∈ pre.toList, c ≠ 'y')
    (hne : id.toList ≠ []) (hid : ∀ c ∈ id.toList, goodIdChar c = true) :
    extract_video_id (pre ++ "youtu.be/" ++ id) = some id := by
  have hdata : (pre ++ "youtu.be/" ++ id).toList =
      pre.toList ++ (litYoutuBe ++ id.toList) := by
    simp only [String.toList, String.data_append, List.append_assoc]
    rfl
  have hm : matchAt (litYoutuBe ++ id.toList) = some id.toList := by
    rw [matchAt_youtuBe]
    exact group5_all_good _ hne (fun c hc => good_not_stop c (hid c hc))
  have hs : searchGroup5 ((pre ++ "youtu.be/" ++ id).toList) = some id.toList := by
    rw [hdata, searchGroup5_append _ _ hy]
    exact searchGroup5_of_matchAt (by simp [litYoutuBe]) hm
  unfold extract_video_id
  rw [hs]
  rfl

theorem extract_watch (pre id : String) (hy : ∀ c ∈ pre.toList, c ≠ 'y')
    (hne : id.toList ≠ []) (hid : ∀ c ∈ id.toList, goodIdChar c = true) :
    extract_video_id (pre ++ "youtube.com/watch?v=" ++ id) = some id := by
  have hdata : (pre ++ "youtube.com/watch?v=" ++ id).toList =
      pre.toList ++ (litYoutube ++ (litWatch ++ (litVEq ++ id.toList))) := by
    simp only [String.toList, String.data_append, List.append_assoc]
    rfl
  have hamp : ∀ c ∈ litVEq ++ id.toList, c ≠ '&' := by
    intro c hc
    rcases List.mem_append.1 hc with h | h
    · have hv : c = 'v' ∨ c = '=' := by simpa [litVEq] using h
      rcases hv with h | h <;> (subst h; decide)
    · exact good_ne_amp c (hid c h)
  have hm : matchAt (litYoutube ++ (litWatch ++ (litVEq ++ id.toList))) =
      some id.toList := by
    rw [matchAt_youtube, innerAlt_watch, watchTail_no_amp _ hamp, veqGroup_append]
    exact group5_all_good _ hne (fun c hc => good_not_stop c (hid c hc))
  have hs : searchGroup5 ((pre ++ "youtube.com/watch?v=" ++ id).toList) =
      some id.toList := by
    rw [hdata, searchGroup5_append _ _ hy]
    exact searchGroup5_of_matchAt (by simp [litYoutube]) hm
  unfold extract_video_id
  rw [hs]
  rfl

theorem extract_embed (pre id : String) (hy : ∀ c ∈ pre.toList, c ≠ 'y')
    (hne : id.toList ≠ []) (hid : ∀ c ∈ id.toList, goodIdChar c = true) :
    extract_video_id (pre ++ "youtube.com/embed/" ++ id) = some id := by
  have hdata : (pre ++ "youtube.com/embed/" ++ id).toList =
      pre.toList ++ (litYoutube ++ (litEmbedSlash ++ id.toList)) := by
    simp only [String.toList, String.data_append, List.append_assoc]
    rfl
  have hm : matchAt (litYoutube ++ (litEmbedSlash ++ id.toList)) =
      some id.toList := by
    rw [matchAt_youtube, innerAlt_embed]
    exact group5_all_good _ hne (fun c hc => good_not_stop c (hid c hc))
  have hs : searchGroup5 ((pre ++ "youtube.com/embed/" ++ id).toList) =
      some id.toList := by
    rw [hdata, searchGroup5_append _ _ hy]
    exact searchGroup5_of_matchAt (by simp [litYoutube]) hm
  unfold extract_video_id
  rw [hs]
  rfl

theorem extract_vslash (pre id : String) (hy : ∀ c ∈ pre.toList, c ≠ 'y')
    (hne : id.toList ≠ []) (hid : ∀ c ∈ id.toList, goodIdChar c = true) :
    extract_video_id (pre ++ "youtube.com/v/" ++ id) = some id := by
  have hdata : (pre ++ "youtube.com/v/" ++ id).toList =
      pre.toList ++ (litYoutube ++ (litVSlash ++ id.toList)) := by
    simp only [String.toList, String.data_append, List.append_assoc]
    rfl
  have hm : matchAt (litYoutube ++ (litVSlash ++ id.toList)) =
      some id.toList := by
    rw [matchAt_youtube, innerAlt_v]
    exact group5_all_good _ hne (fun c hc => good_not_stop c (hid c hc))
  have hs : searchGroup5 ((pre ++ "youtube.com/v/" ++ id).toList) =
      some id.toList := by
    rw [hdata, searchGroup5_append _ _ hy]
    exact searchGroup5_of_matchAt (by simp [litYoutube]) hm
  unfold extract_video_id
  rw [hs]
  rfl

theorem innerAlt_marker {t g : List Char} (h : innerAlt t = some g) :
    litWatch.isPrefixOf t = true ∨ litEmbedSlash.isPrefixOf t = true ∨
      litVSlash.isPrefixOf t = true := by
  by_cases h1 : litWatch.isPrefixOf t = true
  · exact Or.inl h1
  · unfold innerAlt at h
    rw [if_neg h1] at h
    by_cases h2 : litEmbedSlash.isPrefixOf t = true
    · exact Or.inr (Or.inl h2)
    · rw [if_neg h2] at h
      by_cases h3 : litVSlash.isPrefixOf t = true
      · exact Or.inr (Or.inr h3)
      · rw [if_neg h3] at h
        simp at h

theorem matchAt_marker {l g : List Char} (h : matchAt l = some g) :
    litYoutuBe.isPrefixOf l = true ∨ litYoutubeWatch.isPrefixOf l = true ∨
      litYoutubeEmbed.isPrefixOf l = true ∨ litYoutubeV.isPrefixOf l = true := by
  by_cases h1 : litYoutuBe.isPrefixOf l = true
  · exact Or.inl h1
  · unfold matchAt at h
    rw [if_neg h1] at h
    by_cases h2 : litYoutube.isPrefixOf l = true
    · rw [if_pos h2] at h
      obtain ⟨t, ht⟩ := exists_of_isPrefixOf h2
      have hdrop : l.drop 12 = t := by
        rw [ht]; exact List.drop_left' (by decide)
      rw [hdrop] at h
      simp only at h
      rcases innerAlt_marker h with hw | he | hv
      · obtain ⟨t', ht'⟩ := exists_of_isPrefixOf hw
        refine Or.inr (Or.inl ?_)
        rw [ht, ht', litYoutubeWatch, ← List.append_assoc]
        exact isPrefixOf_append_self _ _
      · obtain ⟨t', ht'⟩ := exists_of_isPrefixOf he
        refine Or.inr (Or.inr (Or.inl ?_))
        rw [ht, ht', litYoutubeEmbed, ← List.append_assoc]
        exact isPrefixOf_append_self _ _
      · obtain ⟨t', ht'⟩ := exists_of_isPrefixOf hv
        refine Or.inr (Or.inr (Or.inr ?_))
        rw [ht, ht', litYoutubeV, ← List.append_assoc]
        exact isPrefixOf_append_self _ _
    · rw [if_neg h2] at h
      simp at h

theorem searchGroup5_suffix {l g : List Char} (h : searchGroup5 l = some g) :
    ∃ p s, l = p ++ s ∧ matchAt s = some g := by
  induction l with
  | nil => simp [searchGroup5] at h
  | cons c rest ih =>
    rw [searchGroup5] at h
    cases hm : matchAt (c :: rest) with
    | some g' =>
      rw [hm] at h
      simp only [Option.some.injEq] at h
      exact ⟨[], c :: rest, rfl, by rw [hm, h]⟩
    | none =>
      rw [hm] at h
      simp only at h
      obtain ⟨p, s, hps, hm'⟩ := ih h
      exact ⟨c :: p, s, by rw [hps]; rfl, hm'⟩

theorem containsSeq_of_parts {pat : List Char} (p : List Char) {s : List Char}
    (hp : pat.isPrefixOf s = true) : containsSeq pat (p ++ s) = true := by
  induction p with
  | nil =>
    cases s with
    | nil => simpa [containsSeq] using hp
    | cons c r => simp [containsSeq, hp]
  | cons c r ih => simp [containsSeq, ih]

theorem extract_none_of_no_marker (url : String)
    (h1 : containsSeq litYoutuBe url.toList = false)
    (h2 : containsSeq litYoutubeWatch url.toList = false)
    (h3 : containsSeq litYoutubeEmbed url.toList = false)
    (h4 : containsSeq litYoutubeV url.toList = false) :
    extract_video_id url = none := by
  unfold extract_video_id
  cases hs : searchGroup5 url.toList with
  | none => rfl
  | some g =>
    obtain ⟨p, s, hps, hm⟩ := searchGroup5_suffix hs
    rcases matchAt_marker hm with hp | hp | hp | hp
    · rw [hps, containsSeq_of_parts p hp] at h1
      simp at h1
    · rw [hps, containsSeq_of_parts p hp] at h2
      simp at h2
    · rw [hps, containsSeq_of_parts p hp] at h3
      simp at h3
    · rw [hps, containsSeq_of_parts p hp] at h4
      simp at h4

/-- A string occurring as the middle operand of an append occurs in the
whole. -/
theorem containsSeq_mid (A B S : String) :
    containsSeq B.toList (A ++ (B ++ S)).toList = true := by
  have h : (A ++ (B ++ S)).toList = A.toList ++ (B.toList ++ S.toList) := by
    simp [String.toList, String.data_append]
  rw [h]
  exact containsSeq_of_parts A.toList (isPrefixOf_append_self _ _)

/-! ## Claim theorems -/

/-- C4: for every URL built from one of the four supported shapes
`youtu.be/<id>`, `youtube.com/watch?v=<id>`, `youtube.com/embed/<id>`,
`youtube.com/v/<id>` (any prefix without a `y`, identifier over the
identifier alphabet), extraction returns exactly `<id>`; and every URL
containing none of the four shape markers `youtu.be/`,
`youtube.com/watch?`, `youtube.com/embed/`, `youtube.com/v/` - hence
matching none of the shapes - yields `None`. -/
theorem c4_extraction_shapes :
    (∀ pre id : String, (∀ c ∈ pre.toList, c ≠ 'y') → id.toList ≠ [] →
      (∀ c ∈ id.toList, goodIdChar c = true) →
      extract_video_id (pre ++ "youtu.be/" ++ id) = some id ∧
      extract_video_id (pre ++ "youtube.com/watch?v=" ++ id) = some id ∧
      extract_video_id (pre ++ "youtube.com/embed/" ++ id) = some id ∧
      extract_video_id (pre ++ "youtube.com/v/" ++ id) = some id) ∧
    (∀ url : String, containsSeq litYoutuBe url.toList = false →
      containsSeq litYoutubeWatch url.toList = false →
      containsSeq litYoutubeEmbed url.toList = false →
      containsSeq litYoutubeV url.toList = false →
      extract_video_id url = none) := by
  constructor
  · intro pre id hy hne hid
    exact ⟨extract_youtuBe pre id hy hne hid, extract_watch pre id hy hne hid,
      extract_embed pre id hy hne hid, extract_vslash pre id hy hne hid⟩
  · exact extract_none_of_no_marker

/-- Witness for C4 at concrete inputs. -/
theorem c4_extraction_shapes_witness :
    extract_video_id ("https://" ++ "youtu.be/" ++ "dQw4w9WgXcQ") =
      some "dQw4w9WgXcQ" ∧
    extract_video_id ("https://www." ++ "youtube.com/watch?v=" ++ "ABC123") =
      some "ABC123" ∧
    extract_video_id "https://example.com/page" = none := by
  refine ⟨?_, ?_, ?_⟩
  · exact (c4_extraction_shapes.1 "https://" "dQw4w9WgXcQ"
      (by decide) (by decide) (by decide)).1
  · exact (c4_extraction_shapes.1 "https://www." "ABC123"
      (by decide) (by decide) (by decide)).2.1
  · exact c4_extraction_shapes.2 "https://example.com/page"
      (by decide) (by decide) (by decide) (by decide)

/-- C5 counterexample: the claim's transformation replaces every character
that is not alphanumeric or whitespace - including the underscore - by a
hyphen, but the code's `\w` class keeps the underscore: on the tag `a_b` the
code returns `a_b` while the claim demands `a-b`. -/
theorem c5_counterexample :
    sanitize_tags ["a_b"] = ["a_b"] ∧ claimSanitizeTag "a_b" = "a-b" ∧
      ("a_b" : String) ≠ "a-b" :=
  ⟨by decide, by decide, by decide⟩

/-- C5 amended: each tag is mapped, in order, by removing apostrophes,
hyphenating every character that is neither a word character (alphanumeric or
underscore) nor whitespace, hyphenating each space character, and lowercasing;
length and order are preserved (duplicates kept), and the worked example
holds. -/
theorem c5_amended_sanitize_tags :
    (∀ tags : List String, sanitize_tags tags = tags.map amendedSanitizeTag ∧
      (sanitize_tags tags).length = tags.length) ∧
    sanitize_tags ["Rock & Roll", "C++", "O'Brien's Tips"] =
      ["rock---roll", "c--", "obriens-tips"] := by
  constructor
  · intro tags
    constructor
    · unfold sanitize_tags
      refine List.map_congr_left ?_
      intro t _
      rw [sanitize_tag_eq_map]
      unfold amendedSanitizeTag
      exact congrArg String.mk
        (List.map_congr_left (fun a _ => comp_eq_amended a))
    · simp [sanitize_tags]
  · decide

/-- C6 counterexample: under the Unicode semantics of `re` and `str.lower`
the program's tag sanitization is not idempotent: the tag `İ` (U+0130)
sanitizes to `i` followed by the combining dot above (U+0307), and sanitizing
that again hyphenates the combining dot, giving `i-`. -/
theorem c6_counterexample :
    sanitize_tags_py (sanitize_tags_py ["\u0130"]) ≠
      sanitize_tags_py ["\u0130"] ∧
    sanitize_tags_py ["\u0130"] = ["i\u0307"] ∧
    sanitize_tags_py (sanitize_tags_py ["\u0130"]) = ["i-"] :=
  ⟨by decide, by decide, by decide⟩

/-- C6 amended: tag sanitization is idempotent on every sequence of ASCII tag
strings (every character below code point 128), where the Unicode-aware
sanitizer agrees with the ASCII model; on full Unicode input idempotence
fails (see the counterexample `İ`). -/
theorem c6_amended_ascii_idem (tags : List String)
    (h : ∀ t ∈ tags, ∀ c ∈ t.toList, c.toNat < 128) :
    sanitize_tags_py tags = sanitize_tags tags ∧
    sanitize_tags_py (sanitize_tags_py tags) = sanitize_tags_py tags := by
  have hag : sanitize_tags_py tags = sanitize_tags tags :=
    sanitize_tags_py_ascii tags h
  refine ⟨hag, ?_⟩
  have hA : ∀ t' ∈ sanitize_tags tags, ∀ c ∈ t'.toList, c.toNat < 128 := by
    intro t' ht' c hc
    rcases List.mem_map.1 ht' with ⟨t0, ht0, rfl⟩
    exact sanitize_tag_output_ascii t0 (h t0 ht0) c hc
  calc sanitize_tags_py (sanitize_tags_py tags)
      = sanitize_tags_py (sanitize_tags tags) := by rw [hag]
    _ = sanitize_tags (sanitize_tags tags) := sanitize_tags_py_ascii _ hA
    _ = sanitize_tags tags := sanitize_tags_idem tags
    _ = sanitize_tags_py tags := hag.symm

/-- Witness for C6's amended statement at a concrete ASCII input. -/
theorem c6_amended_ascii_idem_witness :
    sanitize_tags_py ["Rock & Roll"] = sanitize_tags ["Rock & Roll"] ∧
    sanitize_tags_py (sanitize_tags_py ["Rock & Roll"]) =
      sanitize_tags_py ["Rock & Roll"] :=
  c6_amended_ascii_idem ["Rock & Roll"] (by decide)

/-- C10: filename sanitization maps each of the nine characters `<>:"/\|?*`
to `-` and leaves every other character unchanged; a title containing none of
them passes through unchanged. -/
theorem c10_sanitize_filename (title : String) :
    sanitize_filename title =
      String.mk (title.toList.map
        (fun c => if c ∈ invalid_chars then '-' else c)) ∧
    ((∀ c ∈ title.toList, c ∉ invalid_chars) →
      sanitize_filename title = title) := by
  have hnine : ∀ l : List Char,
      ((((((((l.map (fun x => if x = '<' then '-' else x)).map
        (fun x => if x = '>' then '-' else x)).map
        (fun x => if x = ':' then '-' else x)).map
        (fun x => if x = '"' then '-' else x)).map
        (fun x => if x = '/' then '-' else x)).map
        (fun x => if x = '\\' then '-' else x)).map
        (fun x => if x = '|' then '-' else x)).map
        (fun x => if x = '?' then '-' else x)).map
        (fun x => if x = '*' then '-' else x) =
      l.map (fun c => if c ∈ invalid_chars then '-' else c) := by
    intro l
    induction l with
    | nil => rfl
    | cons a t ih =>
      simp only [List.map_cons]
      rw [List.cons.injEq]
      refine ⟨?_, ih⟩
      by_cases h : a ∈ invalid_chars
      · have ha : a = '<' ∨ a = '>' ∨ a = ':' ∨ a = '"' ∨ a = '/' ∨
            a = '\\' ∨ a = '|' ∨ a = '?' ∨ a = '*' := by
          simpa [invalid_chars, or_assoc] using h
        rcases ha with h1 | h1 | h1 | h1 | h1 | h1 | h1 | h1 | h1 <;>
          subst h1 <;> decide
      · obtain ⟨n1, n2, n3, n4, n5, n6, n7, n8, n9⟩ :
            a ≠ '<' ∧ a ≠ '>' ∧ a ≠ ':' ∧ a ≠ '"' ∧ a ≠ '/' ∧
              a ≠ '\\' ∧ a ≠ '|' ∧ a ≠ '?' ∧ a ≠ '*' := by
          simpa [invalid_chars, or_assoc, not_or] using h
        simp [n1, n2, n3, n4, n5, n6, n7, n8, n9, h]
  have hmap : sanitize_filename title =
      String.mk (title.toList.map
        (fun c => if c ∈ invalid_chars then '-' else c)) := by
    rw [← hnine title.toList]
    rfl
  refine ⟨hmap, ?_⟩
  intro hcl
  rw [hmap]
  have hid : title.toList.map (fun c => if c ∈ invalid_chars then '-' else c) =
      title.toList := by
    have h1 : title.toList.map
        (fun c => if c ∈ invalid_chars then '-' else c) =
        title.toList.map id :=
      List.map_congr_left (fun a ha => by simp [hcl a ha])
    rw [h1, List.map_id]
  rw [hid]
  rfl

/-- Witness for C10 at concrete titles. -/
theorem c10_sanitize_filename_witness :
    sanitize_filename "Test: Video?" = "Test- Video-" ∧
    sanitize_filename "Clean" = "Clean" := by
  constructor
  · have h := (c10_sanitize_filename "Test: Video?").1
    rw [h]
    decide
  · exact (c10_sanitize_filename "Clean").2 (by decide)

/-- C1: when the remote service returns an empty item list,
`get_video_metadata` returns the not-found string - an outcome that is never
equal to a structural metadata record - and no note file is written by any
invocation of `main` on that service. -/
theorem c1_empty_items_not_found (url : String)
    (items : Option String → List Snippet)
    (h : items (extract_video_id url) = []) :
    (get_video_metadata url items).result =
      FetchResult.notFound "No video found for this ID." ∧
    (∀ m : VideoMetadata,
      (get_video_metadata url items).result ≠ FetchResult.found m) ∧
    (∀ apiKey resolution,
      mainWrites (main apiKey url resolution items) = []) := by
  have hres : get_video_metadata url items =
      ⟨extract_video_id url,
        FetchResult.notFound "No video found for this ID."⟩ := by
    simp only [get_video_metadata, h]
  refine ⟨by rw [hres], ?_, ?_⟩
  · intro m hm
    rw [hres] at hm
    simp at hm
  · intro apiKey resolution
    cases main apiKey url resolution items <;> rfl

/-- Witness for C1 at a concrete empty-service invocation. -/
theorem c1_empty_items_not_found_witness :
    (get_video_metadata "https://youtu.be/ABC" (fun _ => [])).result =
      FetchResult.notFound "No video found for this ID." ∧
    mainWrites (main (some "key") "https://youtu.be/ABC" (some "FHD")
      (fun _ => [])) = [] := by
  have h := c1_empty_items_not_found "https://youtu.be/ABC" (fun _ => []) rfl
  exact ⟨h.1, h.2.2 (some "key") (some "FHD")⟩

/-- C2 evidence: on a URL where identifier extraction yields no match the
pipeline does not halt before the fetch: `main` issues the metadata request
with the absent identifier (`id=None`) - recorded as the requested id `none`
in the outcome's fetch trace - instead of reporting an error first. -/
theorem c2_fetch_called_with_absent_id :
    extract_video_id "https://example.com/page" = none ∧
    main (some "key") "https://example.com/page" (some "FHD") (fun _ => []) =
      MainOutcome.nameErrorVideoId
        ⟨none, FetchResult.notFound "No video found for this ID."⟩ :=
  ⟨by decide, by decide⟩

/-- C3 counterexample: an invocation that omits `-r` (and has no configured
default) reaches line 132 with `args.resolution = None`, so
`RESOLUTIONS[args.resolution]` raises `KeyError` there - not the claimed
`NameError` at embed generation - even though the metadata fetch returned. -/
theorem c3_counterexample :
    main (some "key") "https://youtu.be/ABC" none (fun _ => []) =
      MainOutcome.keyErrorResolution
        ⟨some "ABC", FetchResult.notFound "No video found for this ID."⟩ ∧
    main (some "key") "https://youtu.be/ABC" none (fun _ => []) ≠
      MainOutcome.nameErrorVideoId
        ⟨some "ABC", FetchResult.notFound "No video found for this ID."⟩ :=
  ⟨by decide, by decide⟩

/-- C3 amended: for every invocation in which the metadata fetch returns and
the resolution lookup succeeds, `main` raises `NameError` on the unbound name
`video_id` at embed generation (a failing lookup raises `KeyError` at line 132
instead); on every path `create_markdown_file` is never reached and no note
file is written; additionally `create_markdown_file` is defined with four
parameters but called with three, and its body, if ever executed, raises
`NameError` on the never-imported name `datetime`. -/
theorem c3_amended (apiKey : String) (hk : apiKey ≠ "") (url : String)
    (resolution : String) (wh : Nat × Nat)
    (hr : lookupResolution (some resolution) = some wh)
    (items : Option String → List Snippet) :
    main (some apiKey) url (some resolution) items =
      MainOutcome.nameErrorVideoId (get_video_metadata url items) ∧
    (∀ o : MainOutcome, mainWrites o = []) ∧
    main_call_create_markdown_file_arg_count ≠
      create_markdown_file_param_count ∧
    (∀ (m : VideoMetadata) (e : String) (c : Option Unit) (v : String),
      create_markdown_file m e c v =
        CreateOutcome.nameError "datetime" "---\n") := by
  refine ⟨?_, ?_, by decide, fun m e c v => rfl⟩
  · unfold main
    rw [show (some apiKey).getD "" = apiKey from rfl, if_neg hk, hr]
  · intro o
    cases o <;> rfl

/-- Witness for C3's amended statement at a concrete invocation. -/
theorem c3_amended_witness :
    main (some "key") "https://youtu.be/ABC" (some "FHD") (fun _ => []) =
      MainOutcome.nameErrorVideoId
        (get_video_metadata "https://youtu.be/ABC" (fun _ => [])) ∧
    mainWrites (main (some "key") "https://youtu.be/ABC" (some "FHD")
      (fun _ => [])) = [] := by
  have h := c3_amended "key" (by decide) "https://youtu.be/ABC" "FHD"
    (1920, 1080) (by decide) (fun _ => [])
  exact ⟨h.1, h.2.1 _⟩

/-- C7 counterexample: with the sanitized tag `foo-bar` the produced
frontmatter contains the single inline line `tags: [#foo-bar]` and no
nested-list line `  - foo-bar` anywhere in the note. -/
theorem c7_counterexample :
    containsSeq ("tags: [#foo-bar]\n".toList)
      (noteContent ⟨"https://youtu.be/x", "T", "d", "Chan", none, ["foo-bar"]⟩
        "EMBED" "2024-01-01" "Mon" "12:00").toList = true ∧
    containsSeq ("  - foo-bar".toList)
      (noteContent ⟨"https://youtu.be/x", "T", "d", "Chan", none, ["foo-bar"]⟩
        "EMBED" "2024-01-01" "Mon" "12:00").toList = false :=
  ⟨by decide, by decide⟩

/-- C7 amended: the tags key renders as the single inline frontmatter line
`tags: [...]` listing the `#`-prefixed sanitized tags joined by `, `; when
the tag sequence is empty the line `tags: []` still appears. -/
theorem c7_amended_tags_line (m : VideoMetadata) (e d dy t : String) :
    containsSeq (tagsFrontmatterLine m.tags).toList
      (noteContent m e d dy t).toList = true ∧
    tagsFrontmatterLine [] = "tags: []\n" := by
  constructor
  · have h0 : noteContent m e d dy t =
        ("---\n" ++ ("date: " ++ d ++ "\n") ++ ("day: " ++ dy ++ "\n") ++
            ("time: " ++ t ++ "\n")) ++
          (tagsFrontmatterLine m.tags ++
            ("type: link\n" ++ ("url: " ++ m.url ++ "\n") ++
              ("author: " ++ m.channel ++ "\n") ++ "---\n\n" ++
              ("# " ++ m.title ++ "\n\n") ++ (e ++ "\n\n") ++
              "## Description\n" ++ (m.description ++ "\n\n"))) := by
      simp only [noteContent, tagsFrontmatterLine, String.append_assoc]
    rw [h0]
    exact containsSeq_mid _ _ _
  · decide

/-- C8 counterexample: the `url` value stored in the metadata record (and
written to the frontmatter) is the user-supplied URL verbatim: a `youtu.be`
input stays `youtu.be` instead of becoming the canonical watch URL. -/
theorem c8_counterexample :
    (get_video_metadata "https://youtu.be/ABC"
      (fun _ => [⟨"T", "d", "C", none, none⟩])).result =
      FetchResult.found ⟨"https://youtu.be/ABC", "T", "d", "C", none, []⟩ ∧
    ("https://youtu.be/ABC" : String) ≠
      "https://www.youtube.com/watch?v=ABC" :=
  ⟨by decide, by decide⟩

/-- C8 amended: for every fetch that finds an item, the metadata record's
`url` field is the user-supplied URL itself (no canonicalization), and the
frontmatter line written for it is `url: <that url>`. -/
theorem c8_amended_url_verbatim :
    (∀ (url : String) (items : Option String → List Snippet)
        (s : Snippet) (rest : List Snippet),
      items (extract_video_id url) = s :: rest →
      (get_video_metadata url items).result =
        FetchResult.found ⟨url, s.title, s.description, s.channelTitle,
          s.publishedAt, sanitize_tags (s.tags.getD [])⟩) ∧
    (∀ (m : VideoMetadata) (e d dy t : String),
      containsSeq ("url: " ++ m.url ++ "\n").toList
        (noteContent m e d dy t).toList = true) := by
  constructor
  · intro url items s rest h
    simp only [get_video_metadata, h]
  · intro m e d dy t
    have h0 : noteContent m e d dy t =
        ("---\n" ++ ("date: " ++ d ++ "\n") ++ ("day: " ++ dy ++ "\n") ++
            ("time: " ++ t ++ "\n") ++
            ("tags: [" ++ String.intercalate ", "
              ((sanitize_tags m.tags).map (fun tg => "#" ++ tg)) ++ "]\n") ++
            "type: link\n") ++
          (("url: " ++ m.url ++ "\n") ++
            (("author: " ++ m.channel ++ "\n") ++ "---\n\n" ++
              ("# " ++ m.title ++ "\n\n") ++ (e ++ "\n\n") ++
              "## Description\n" ++ (m.description ++ "\n\n"))) := by
      simp only [noteContent, String.append_assoc]
    rw [h0]
    exact containsSeq_mid _ _ _

/-- Witness for C8's amended statement at a concrete invocation. -/
theorem c8_amended_url_verbatim_witness :
    (get_video_metadata "https://www.youtube.com/watch?v=ABC"
      (fun _ => [⟨"T", "d", "C", none, none⟩])).result =
      FetchResult.found ⟨"https://www.youtube.com/watch?v=ABC", "T", "d", "C",
        none, sanitize_tags ((none : Option (List String)).getD [])⟩ ∧
    containsSeq ("url: " ++ "https://youtu.be/x" ++ "\n").toList
      (noteContent ⟨"https://youtu.be/x", "T", "d", "Chan", none, []⟩
        "EMBED" "2024-01-01" "Mon" "12:00").toList = true := by
  have h := c8_amended_url_verbatim
  exact ⟨h.1 "https://www.youtube.com/watch?v=ABC"
      (fun _ => [⟨"T", "d", "C", none, none⟩]) ⟨"T", "d", "C", none, none⟩ []
      rfl,
    h.2 ⟨"https://youtu.be/x", "T", "d", "Chan", none, []⟩
      "EMBED" "2024-01-01" "Mon" "12:00"⟩

/-- C9 counterexample: the produced note is not the claimed concatenation:
between the frontmatter block and the embed line the code writes a
`# <title>` heading (and a blank line), and two newlines follow the
description; the full text at a concrete input exhibits both. -/
theorem c9_counterexample :
    noteContent ⟨"https://youtu.be/x", "T", "d", "Chan", none, ["foo-bar"]⟩
        "EMBED" "2024-01-01" "Mon" "12:00" =
      "---\ndate: 2024-01-01\nday: Mon\ntime: 12:00\ntags: [#foo-bar]\ntype: link\nurl: https://youtu.be/x\nauthor: Chan\n---\n\n# T\n\nEMBED\n\n## Description\nd\n\n" ∧
    noteContent ⟨"https://youtu.be/x", "T", "d", "Chan", none, ["foo-bar"]⟩
        "EMBED" "2024-01-01" "Mon" "12:00" ≠
      claimedNoteContent
        ⟨"https://youtu.be/x", "T", "d", "Chan", none, ["foo-bar"]⟩
        "EMBED" "2024-01-01" "Mon" "12:00" ∧
    containsSeq ("---\n\n# T\n\nEMBED".toList)
      (noteContent ⟨"https://youtu.be/x", "T", "d", "Chan", none, ["foo-bar"]⟩
        "EMBED" "2024-01-01" "Mon" "12:00").toList = true :=
  ⟨by decide, by decide, by decide⟩

/-- C9 amended: the note text is exactly the concatenation: frontmatter block
(`---`-delimited), blank line, `# <title>` heading, blank line, embed line,
blank line, `## Description` heading, description text, trailing blank
line. -/
theorem c9_amended_layout (m : VideoMetadata) (e d dy t : String) :
    noteContent m e d dy t =
      frontmatterBlock m d dy t ++ "\n" ++ ("# " ++ m.title ++ "\n\n") ++
        (e ++ "\n\n") ++ "## Description\n" ++ (m.description ++ "\n\n") := by
  have hsplit : ("---\n\n" : String) = "---\n" ++ "\n" := by decide
  simp only [noteContent, frontmatterBlock, tagsFrontmatterLine, hsplit,
    String.append_assoc]

end Tuber

